import Mathlib

/-!
# Verification of the FoXYiZ data-driven test-execution engine

Shallow embedding of the execution engine of `fEngine.py` together with the
pass/fail classification logic of `x/xActions.py` (`runAction`).

Modelling conventions:

* CSV cells are Lean `String`s (the engine converts cells with `str(...)`
  before use).  The one exception is a design row's `DataName` cell, which the
  Python code uses *without* `str(...)` conversion; an empty CSV cell there
  surfaces as a pandas `NaN` float and makes `re.escape` raise a `TypeError`.
  We model that cell as `Option String`, `none` standing for the empty cell.
* Python exceptions that escape the engine are modelled with
  `Except EngErr`; an expression that raises corresponds to `.error`.
* Action providers (browser, HTTP, arithmetic, ...) are external
  collaborators; they are modelled by an oracle `Exec` mapping
  (actionType, actionName, input) to either a textual output or a raised
  error message.  An unknown operation name corresponds to the oracle
  returning `.raise "Unknown <type> action: <name>"`, matching the
  `getattr`-lookup failure inside `runAction`'s `try` block.
* Wall-clock fields (`Time`, `TimeTaken`) are omitted: no modelled
  computation depends on them.
* The unbounded Python recursion of `process_action` (reuse expansion) is
  modelled with an explicit fuel parameter; `EngErr.outOfFuel` marks a
  computation that exceeds any given recursion budget.
* Python's `float` is an IEEE-754 binary64 double.  `parseFloat` models
  `float()` faithfully: the decimal literal (underscores allowed between
  digits) is rounded to the nearest double with ties to even, and the
  `inf`/`infinity`/`nan` forms parse to the special values; the comparison
  `abs(expected_float - actual_float) < 1e-6` is evaluated in binary64
  (`subD`/`absD`/`ltD` over `PyDouble`, with `1e-6` itself the rounded
  double `d1e6`).  Doubles are represented exactly by integer
  mantissa/power-of-two pairs so the model evaluates inside the kernel;
  `ltD_finite_iff` connects the integer comparison with the exact rational
  values.
-/

/-- Outcome of one provider operation: a textual output, or a raised
exception with a message. -/
inductive OpOutcome where
  | ok (out : String)
  | raise (msg : String)
deriving DecidableEq, Repr

/-- Oracle for the pluggable action providers:
(actionType, actionName, input) ↦ outcome. -/
abbrev Exec := String → String → String → OpOutcome

/-- The `Result` field of an action result: `"Pass"` or `"Fail"` in the
Python code. -/
inductive ResultV where
  | Pass
  | Fail
deriving DecidableEq, Repr

/-- A Python exception escaping the engine (uncaught), or fuel exhaustion of
the recursive reuse expansion. -/
inductive EngErr where
  | fileNotFound (which : String)
  | valueError (msg : String)
  | typeError (msg : String)
  | outOfFuel
deriving DecidableEq, Repr

/-- One row of the Plans CSV (`PlanId, DesignId, Run`). -/
structure PlanRow where
  planId : String
  designId : String
  run : String
deriving DecidableEq, Repr

/-- One row of the Actions CSV. -/
structure ActionRow where
  planId : String
  stepId : String
  stepInfo : String
  actionType : String
  actionName : String
  input : String
  expected : String
  critical : String
deriving DecidableEq, Repr

/-- One row of the Designs CSV: `dataName = none` models an empty
`DataName` cell (pandas `NaN`); `cells` maps a design column name to the
cell's string form. -/
structure DesignRow where
  dataName : Option String
  cells : List (String × String)
deriving DecidableEq, Repr

/-- The Designs CSV: its column list plus its rows. -/
structure DesignTable where
  columns : List String
  rows : List DesignRow
deriving DecidableEq, Repr

/-- The three table files referenced by one suite config; `none` models a
missing file (opening it raises `FileNotFoundError`). -/
structure SuiteEnv where
  plansFile : Option (List PlanRow)
  actionsFile : Option (List ActionRow)
  designsFile : Option DesignTable
deriving Repr

/-! Python string methods used by the engine, implemented over the
character list of a `String` (the library's byte-position-based versions do
not reduce inside the kernel). -/

/-- Python `x.startswith('P')`. -/
def startsWithP (s : String) : Bool :=
  match s.data with
  | [] => false
  | c :: _ => c == 'P'

/-- Python `s.strip()`: remove leading and trailing whitespace. -/
def pyStrip (s : String) : String :=
  ⟨((s.data.dropWhile Char.isWhitespace).reverse.dropWhile
      Char.isWhitespace).reverse⟩

/-- Python `s.lower()` (ASCII fragment). -/
def pyLower (s : String) : String :=
  ⟨s.data.map Char.toLower⟩

def splitOnCharAux (sep : Char) (acc : List Char) :
    List Char → List String
  | [] => [⟨acc.reverse⟩]
  | c :: rest =>
    if c == sep then ⟨acc.reverse⟩ :: splitOnCharAux sep [] rest
    else splitOnCharAux sep (c :: acc) rest

/-- Python `s.split(sep)` for a one-character separator (`';'` in
`process_plan`). -/
def pySplitOnChar (sep : Char) (s : String) : List String :=
  splitOnCharAux sep [] s.data

/-- Python `s.replace(a, b)` for one-character arguments. -/
def pyReplaceChar (a b : Char) (s : String) : String :=
  ⟨s.data.map (fun c => if c == a then b else c)⟩

/-- Python `c in s` for a single character. -/
def pyContainsChar (s : String) (c : Char) : Bool :=
  s.data.contains c

/-- `load_csv` normalization of a `PlanId` cell: coerce to string and prefix
`'P'` unless the string already starts with `'P'` (fEngine.py lines
98–101). -/
def normPlanId (s : String) : String :=
  if startsWithP s then s else "P" ++ s

/-- `load_csv` applied to the Plans CSV: every `PlanId` is normalized. -/
def normalizePlans (ps : List PlanRow) : List PlanRow :=
  ps.map fun r => { r with planId := normPlanId r.planId }

/-- `load_csv` applied to the Actions CSV: it also has a `PlanId` column,
so that column is normalized. -/
def normalizeActions (rows : List ActionRow) : List ActionRow :=
  rows.map fun r => { r with planId := normPlanId r.planId }

/-- `load_csv(ypad_config['input_files']['yPlans'][0])`: raises
`FileNotFoundError` when the file is missing, else loads and normalizes. -/
def loadPlans (env : SuiteEnv) : Except EngErr (List PlanRow) :=
  match env.plansFile with
  | none => .error (.fileNotFound "yPlans")
  | some t => .ok (normalizePlans t)

/-- `load_csv(...['yActions'][0])`. -/
def loadActions (env : SuiteEnv) : Except EngErr (List ActionRow) :=
  match env.actionsFile with
  | none => .error (.fileNotFound "yActions")
  | some t => .ok (normalizeActions t)

/-- `load_csv(...['yDesigns'][0])`; the Designs CSV has no `PlanId`
column, so no normalization applies. -/
def loadDesigns (env : SuiteEnv) : Except EngErr DesignTable :=
  match env.designsFile with
  | none => .error (.fileNotFound "yDesigns")
  | some t => .ok t

/-! ## Word-boundary substitution (fEngine.py lines 205–218)

The Python code builds `re.sub(r'\b' + re.escape(data_name) + r'\b',
lambda m: data_value, text)`.  `re.escape` makes the token literal and the
lambda makes the replacement literal, so the semantics is: replace every
non-overlapping, left-to-right occurrence of the token whose two ends sit on
`\b` word boundaries.  A word character is `[A-Za-z0-9_]` (the tables hold
ASCII identifiers; the Unicode extension of `\w` is outside the model). -/

/-- Python regex word character (ASCII fragment of `\w`). -/
def isWordChar (c : Char) : Bool :=
  c.isAlphanum || c == '_'

/-- Whether an optional character (none = beyond the string) is a word
character. -/
def optIsWord : Option Char → Bool
  | none => false
  | some c => isWordChar c

/-- `\b` holds between two (optional) characters iff exactly one side is a
word character. -/
def wordBoundary (a b : Option Char) : Bool :=
  optIsWord a != optIsWord b

/-- Drop `pre` from the front of `s`, if `s` starts with it. -/
def dropPref : List Char → List Char → Option (List Char)
  | [], s => some s
  | _ :: _, [] => none
  | p :: ps, c :: cs => if p == c then dropPref ps cs else none

theorem dropPref_length {pre s rem : List Char}
    (h : dropPref pre s = some rem) : rem.length + pre.length = s.length := by
  induction pre generalizing s with
  | nil => cases h; simp
  | cons p ps ih =>
    match s with
    | [] => simp [dropPref] at h
    | c :: cs =>
      simp only [dropPref] at h
      split at h
      · have := ih h
        simp only [List.length_cons]
        omega
      · cases h

/-- Attempt to match the (nonempty) token at the head of `s`, given the
character `prev` immediately before the match position; both regex word
boundaries of `\btoken\b` must hold.  Returns the remainder after the
match.  The empty token never matches here (design tokens come from
nonempty CSV cells; an empty cell is the `NaN` case handled separately). -/
def matchTok (tok : List Char) (prev : Option Char) (s : List Char) :
    Option (List Char) :=
  match tok with
  | [] => none
  | t :: ts =>
    match dropPref (t :: ts) s with
    | none => none
    | some rem =>
      if wordBoundary prev (some t) &&
          wordBoundary (some ((t :: ts).getLastD t)) rem.head? then
        some rem
      else none

theorem matchTok_some_length {tok : List Char} {prev : Option Char}
    {s rem : List Char} (h : matchTok tok prev s = some rem) :
    rem.length < s.length := by
  match tok with
  | [] => simp [matchTok] at h
  | t :: ts =>
    simp only [matchTok] at h
    split at h
    · cases h
    · rename_i rem' hd
      split at h
      · cases h
        have hl := dropPref_length hd
        simp only [List.length_cons] at hl
        omega
      · cases h

/-- Scanner of `re.sub(r'\b tok \b', val, ·)`: copy characters, replacing
each boundary-delimited occurrence of `tok` by `val`; `prev` is the last
character of the already-consumed input. -/
def substAux (tok val : List Char) (prev : Option Char) (s : List Char) :
    List Char :=
  match s with
  | [] => []
  | c :: rest =>
    match h : matchTok tok prev (c :: rest) with
    | some rem => val ++ substAux tok val (some (tok.getLastD c)) rem
    | none => c :: substAux tok val (some c) rest
termination_by s.length
decreasing_by
  · exact matchTok_some_length h
  · simp

/-- Whether the scanner would find at least one occurrence of `tok`. -/
def occursAux (tok : List Char) (prev : Option Char) (s : List Char) : Bool :=
  match s with
  | [] => false
  | c :: rest =>
    (matchTok tok prev (c :: rest)).isSome || occursAux tok (some c) rest

/-- `re.sub(r'\b' + re.escape(tok) + r'\b', lambda m: val, text)`. -/
def substWord (tok val text : String) : String :=
  ⟨substAux tok.data val.data none text.data⟩

/-- Whether `tok` occurs in `text` as a whole word (both ends on `\b`). -/
def occursWholeWord (tok text : String) : Bool :=
  occursAux tok.data none text.data

theorem substAux_of_not_occurs {tok val : List Char} {prev : Option Char}
    {s : List Char} (h : occursAux tok prev s = false) :
    substAux tok val prev s = s := by
  induction s generalizing prev with
  | nil => simp [substAux]
  | cons c rest ih =>
    rw [occursAux, Bool.or_eq_false_iff] at h
    obtain ⟨h1, h2⟩ := h
    have hm : matchTok tok prev (c :: rest) = none := by
      cases hmt : matchTok tok prev (c :: rest) with
      | none => rfl
      | some r => rw [hmt] at h1; simp at h1
    rw [substAux]
    split
    · rename_i rem hr
      rw [hm] at hr
      cases hr
    · rw [ih h2]

/-- If `tok` has no whole-word occurrence in `text`, the substitution
returns `text` unchanged. -/
theorem substWord_of_not_occurs {tok val text : String}
    (h : occursWholeWord tok text = false) : substWord tok val text = text := by
  unfold substWord
  rw [substAux_of_not_occurs h]

/-! ## Substitution resolver (fEngine.py lines 205–218)

For the column equal to the active `design_id` (and distinct from `Type` and
`DataName`), every design row's token is substituted, in row order, into the
text.  `data_value = str(row[design_id])` converts the value cell (a `NaN`
value cell becomes the literal string `"nan"`), but `data_name =
row['DataName']` is used unconverted: a `NaN` there reaches `re.escape`,
which raises a `TypeError` for non-string input. -/

/-- `str(row[design_id])` for a design row; a missing/empty cell is pandas
`NaN`, whose `str` form is `"nan"`. -/
def getCell (row : DesignRow) (col : String) : String :=
  match row.cells.find? (fun kv => kv.1 == col) with
  | some kv => kv.2
  | none => "nan"

/-- Substitute one design row's token into `text` (raises on a `NaN`
`DataName`). -/
def resolveRow (designId : String) (text : String) (row : DesignRow) :
    Except EngErr String :=
  match row.dataName with
  | none => .error (.typeError "re.escape: expected string or bytes-like object")
  | some tok => .ok (substWord tok (getCell row designId) text)

/-- The substitution resolver: apply every design row, in order, for the
active design column. -/
def resolveText (tbl : DesignTable) (designId : String) (text : String) :
    Except EngErr String :=
  if tbl.columns.contains designId && !(designId == "Type") &&
      !(designId == "DataName") then
    tbl.rows.foldlM (fun acc row => resolveRow designId acc row) text
  else
    .ok text

/-! ## Pass/fail classification (xActions.py `runAction`, lines 1088–1094) -/

/-- Numeric value of a list of decimal digits. -/
def digitsToNat (ds : List Char) : Nat :=
  ds.foldl (fun n c => 10 * n + (c.toNat - 48)) 0

/-! ### Binary64 model of Python floats

CPython's `float` is an IEEE-754 binary64 double: `float(s)` rounds the
decimal literal to the nearest double (ties to even), overflowing to
`inf` and accepting the special forms `inf`/`infinity`/`nan`
(case-insensitive, optionally signed) and single underscores between
digits; `expected_float - actual_float`, `abs(...)` and `< 1e-6` are then
double operations.  A finite double is represented here exactly as an
integer scaled by a power of two; the arithmetic below implements
correct rounding with plain `Nat`/`Int` operations so that the model
evaluates inside the kernel. -/

/-- An IEEE-754 binary64 value: a finite value `mant * 2 ^ exp` (exact),
an infinity, or a NaN. -/
inductive PyDouble where
  | finite (mant : Int) (exp : Int)
  | inf (neg : Bool)
  | nan
deriving DecidableEq, Repr

def negD : PyDouble → PyDouble
  | .finite m e => .finite (-m) e
  | .inf b => .inf (!b)
  | .nan => .nan

/-- Number of bits of a natural number (`0` for `0`).  The fuel is the
number itself, which always dominates the bit count. -/
def bitlenAux : Nat → Nat → Nat
  | 0, _ => 0
  | fuel + 1, n => if n == 0 then 0 else bitlenAux fuel (n / 2) + 1

def bitlen (n : Nat) : Nat :=
  bitlenAux n n

/-- `⌊log₂ (p / q)⌋` for positive `p`, `q`: the `e` with
`2 ^ e ≤ p / q < 2 ^ (e + 1)`. -/
def flog2 (p q : Nat) : Int :=
  let d : Int := (bitlen p : Int) - (bitlen q : Int)
  let ge : Bool :=
    if d ≥ 0 then p ≥ q * 2 ^ d.toNat else p * 2 ^ (-d).toNat ≥ q
  if ge then d else d - 1

/-- Round `a / b` (`b > 0`) to the nearest integer, ties to even. -/
def rndNE (a b : Nat) : Nat :=
  let q := a / b
  let r := a % b
  if 2 * r > b then q + 1
  else if 2 * r < b then q
  else if q % 2 == 0 then q else q + 1

/-- Round the positive rational `p / q` to binary64 (round to nearest,
ties to even): pick the unit `2 ^ t` of the last mantissa place (normal
numbers get 53 significant bits, subnormals the fixed unit `2 ^ (-1074)`),
round the scaled value to an integer, and re-normalize a mantissa carry;
values at or beyond the overflow threshold give `+inf`, values below half
the smallest subnormal give `0.0`. -/
def roundPosToD (p q : Nat) : PyDouble :=
  let e2 := flog2 p q
  if e2 ≥ 1024 then .inf false
  else
    let t : Int := if e2 ≥ -1022 then e2 - 52 else -1074
    let (a, b) : Nat × Nat :=
      if t ≥ 0 then (p, q * 2 ^ t.toNat) else (p * 2 ^ (-t).toNat, q)
    let n := rndNE a b
    if n == 0 then .finite 0 0
    else
      let (n2, t2) : Nat × Int :=
        if n ≥ 2 ^ 53 then (n / 2, t + 1) else (n, t)
      if t2 + 52 ≥ 1024 then .inf false
      else .finite (n2 : Int) t2

/-- Round the rational `num / den` (`den > 0`) to binary64. -/
def roundRatToD (num : Int) (den : Nat) : PyDouble :=
  if num == 0 then .finite 0 0
  else if num > 0 then roundPosToD num.toNat den
  else negD (roundPosToD (-num).toNat den)

/-- The binary64 value of the decimal `m * 10 ^ e10` — what `float()`
returns for a decimal literal with integer mantissa `m` and power-of-ten
exponent `e10`. -/
def decToD (m : Int) (e10 : Int) : PyDouble :=
  if e10 ≥ 0 then roundRatToD (m * (10 : Int) ^ e10.toNat) 1
  else roundRatToD m ((10 : Nat) ^ (-e10).toNat)

/-- Binary64 subtraction: the exact difference of two finite doubles,
re-rounded to binary64; `inf - inf` of equal signs (and any NaN operand)
gives NaN. -/
def subD : PyDouble → PyDouble → PyDouble
  | .nan, _ => .nan
  | _, .nan => .nan
  | .inf b1, .inf b2 => if b1 == b2 then .nan else .inf b1
  | .inf b, .finite _ _ => .inf b
  | .finite _ _, .inf b => .inf (!b)
  | .finite m1 e1, .finite m2 e2 =>
    let k := min e1 e2
    let M : Int := m1 * 2 ^ (e1 - k).toNat - m2 * 2 ^ (e2 - k).toNat
    if k ≥ 0 then roundRatToD (M * 2 ^ k.toNat) 1
    else roundRatToD M (2 ^ (-k).toNat)

/-- Python `abs` on a double. -/
def absD : PyDouble → PyDouble
  | .finite m e => .finite (m.natAbs : Int) e
  | .inf _ => .inf false
  | .nan => .nan

/-- IEEE `<` on doubles: any comparison involving NaN is false; finite
values compare as the exact rationals they denote. -/
def ltD : PyDouble → PyDouble → Bool
  | .nan, _ => false
  | _, .nan => false
  | .inf b1, .inf b2 => b1 && !b2
  | .inf b, .finite _ _ => b
  | .finite _ _, .inf b => !b
  | .finite m1 e1, .finite m2 e2 =>
    let k := min e1 e2
    m1 * 2 ^ (e1 - k).toNat < m2 * 2 ^ (e2 - k).toNat

/-- The binary64 value of the Python literal `1e-6`
(= `4722366482869645 * 2 ^ (-72)`, slightly above the decimal `10⁻⁶`). -/
def d1e6 : PyDouble := decToD 1 (-6)

/-- Digit or underscore (Python numeric literals allow single underscores
between digits). -/
def isDigitU (c : Char) : Bool :=
  c.isDigit || c == '_'

/-- Validity of underscore placement in a consumed digit run: every
underscore sits between two digits.  `prevU` records whether the previous
consumed character was an underscore (initially `true`, so a leading
underscore is rejected; a trailing one is rejected at the end). -/
def digitRunOk (prevU : Bool) : List Char → Bool
  | [] => !prevU
  | c :: rest =>
    if c == '_' then !prevU && digitRunOk true rest
    else digitRunOk false rest

def numRunOk (run : List Char) : Bool :=
  run.isEmpty || digitRunOk true run

def stripU (run : List Char) : List Char :=
  run.filter (fun c => !(c == '_'))

/-- Model of Python `float()`: optional surrounding whitespace, optional
sign, then `inf`/`infinity`/`nan` (any case) or a decimal literal (digits
with optional fraction part, optional exponent, single underscores
permitted between digits), rounded to the nearest binary64.  Returns
`none` where `float()` raises `ValueError`.  (Non-ASCII digit forms are
outside the model.) -/
def parseFloat (str : String) : Option PyDouble :=
  let s := (pyStrip str).data
  let (sgnNeg, s1) : Bool × List Char :=
    match s with
    | '+' :: t => (false, t)
    | '-' :: t => (true, t)
    | t => (false, t)
  let low := s1.map Char.toLower
  if low == "inf".data || low == "infinity".data then some (.inf sgnNeg)
  else if low == "nan".data then some .nan
  else
    let ipRun := s1.takeWhile isDigitU
    let r1 := s1.dropWhile isDigitU
    let (fpRun, r2) : List Char × List Char :=
      match r1 with
      | '.' :: t => (t.takeWhile isDigitU, t.dropWhile isDigitU)
      | t => ([], t)
    let ip := stripU ipRun
    let fp := stripU fpRun
    if !numRunOk ipRun || !numRunOk fpRun then none
    else if ip.isEmpty && fp.isEmpty then none
    else
      let sgn : Int := if sgnNeg then -1 else 1
      let mant : Int := sgn * (digitsToNat (ip ++ fp) : Int)
      match r2 with
      | [] => some (decToD mant (-(fp.length : Int)))
      | e :: t =>
        if e == 'e' || e == 'E' then
          let (esgn, t1) : Int × List Char :=
            match t with
            | '+' :: u => (1, u)
            | '-' :: u => (-1, u)
            | u => (1, u)
          let edRun := t1.takeWhile isDigitU
          let t2 := t1.dropWhile isDigitU
          let ed := stripU edRun
          if !numRunOk edRun || ed.isEmpty || !t2.isEmpty then none
          else some (decToD mant
            (esgn * (digitsToNat ed : Int) - (fp.length : Int)))
        else none

/-- The guard `aExpected and str(aExpected).lower() not in ['nan', 'none',
'']`: a falsy (empty) or null-like expected value skips comparison. -/
def expectedPresent (expected : String) : Bool :=
  !(expected == "") && !(["nan", "none", ""].contains (pyLower expected))

/-- Pass/fail determination of `runAction` for an operation output `vOut`
that was produced without raising: if the expected value is present, try
`float` on both sides and evaluate `abs(expected_float - actual_float) <
1e-6` in binary64; on a `ValueError` (either side unparsable) fall back to
exact string equality; if the expected value is absent the result stays
`"Pass"`. -/
def classify (expected vOut : String) : ResultV :=
  if expectedPresent expected then
    match parseFloat expected with
    | none => if expected == vOut then .Pass else .Fail
    | some e =>
      match parseFloat vOut with
      | none => if expected == vOut then .Pass else .Fail
      | some o => if ltD (absD (subD e o)) d1e6 then .Pass else .Fail
  else .Pass

/-! ## Output post-processing (xActions.py) -/

theorem length_dropWhile_le (p : Char → Bool) (l : List Char) :
    (l.dropWhile p).length ≤ l.length := by
  induction l with
  | nil => simp [List.dropWhile]
  | cons c rest ih =>
    rw [List.dropWhile]
    split
    · exact Nat.le_succ_of_le ih
    · simp

/-- `_sanitize_error_message`: keep the text before the first
`'Stacktrace:'`, collapse whitespace runs to single spaces, and strip. -/
def collapseWsGo (lastWs : Bool) : List Char → List Char
  | [] => []
  | c :: rest =>
    if c.isWhitespace then
      if lastWs then collapseWsGo true rest
      else ' ' :: collapseWsGo true rest
    else c :: collapseWsGo false rest

/-- `re.sub(r"\s+", " ", s)`: each maximal whitespace run becomes one
space. -/
def collapseWsAux (s : List Char) : List Char :=
  collapseWsGo false s

/-- The prefix of `s` before the first occurrence of `pat` (all of `s` if
`pat` does not occur). -/
def takeBefore (pat : List Char) : List Char → List Char
  | [] => []
  | c :: rest =>
    match dropPref pat (c :: rest) with
    | some _ => []
    | none => c :: takeBefore pat rest

/-- `message.split('Stacktrace:', 1)[0]`. -/
def beforeStacktrace (s : String) : String :=
  ⟨takeBefore "Stacktrace:".data s.data⟩

/-- `_sanitize_error_message` (xActions.py lines 62–73). -/
def sanitizeError (msg : String) : String :=
  pyStrip ⟨collapseWsAux (beforeStacktrace msg).data⟩

/-- `ActionHandler.save_output_to_file` (xActions.py lines 123–140), with
the best-effort file write assumed to succeed: long or comma-containing
output is truncated to 140 characters, commas become semicolons, and a
link to the artifact file is appended; otherwise only commas are
replaced. -/
def saveOutputToFile (planId designId stepId output : String) : String :=
  if output == "" then output
  else
    let o := pyStrip (beforeStacktrace output)
    if o.length > 140 || pyContainsChar o ',' then
      let filename :=
        if !(stepId == "") then planId ++ "_" ++ designId ++ "_" ++ stepId ++ ".txt"
        else planId ++ "_" ++ designId ++ ".txt"
      pyReplaceChar ',' ';' (o.take 140) ++ " [Link to " ++ filename ++ "]"
    else pyReplaceChar ',' ';' o

/-! ## The dispatcher `runAction` (xActions.py lines 1049–1125)

The `handlers` dict maps exactly `xUI, xMath, xAPI, xAI, xSAP, xJSON`, with
`xSAP` bound to `None`; `handlers.get` of any other type (including
`xReuse`) also yields `None`, and a `None` handler raises
`ValueError("Unknown action type: ...")` *before* the `try` block, i.e.
uncaught by the dispatcher.  (`process_action` passes a non-`None` handler
only for `xUI`.)  Screenshot capture on UI failure requires an open driver
and is a best-effort side effect outside the model. -/

/-- Action types whose handler in the `handlers` dict is non-`None`. -/
def knownHandlerTypes : List String := ["xUI", "xMath", "xAPI", "xAI", "xJSON"]

/-- Model of `xActions.runAction`: the returned `(Result, Output)` pair, or
an uncaught exception. -/
def runActionM (exec : Exec) (aT aName aIn aExpected planId designId stepId :
    String) : Except EngErr (ResultV × String) :=
  if knownHandlerTypes.contains aT then
    match exec aT aName aIn with
    | .ok out =>
      .ok (classify aExpected out, saveOutputToFile planId designId stepId out)
    | .raise msg =>
      .ok (.Fail, saveOutputToFile planId designId stepId
        ("Error in " ++ aName ++ ": " ++ sanitizeError msg))
  else
    .error (.valueError ("Unknown action type: " ++ aT))

/-! ## The action cache and `process_action` (fEngine.py lines 190–266) -/

/-- `cache_key = f"{plan_id}_{step_id}_{input_data}"` (line 221). -/
def cacheKey (planId stepId inputData : String) : String :=
  planId ++ "_" ++ stepId ++ "_" ++ inputData

/-- The process-wide `action_cache` dict, modelled as an association list in
which a newer entry for a key shadows an older one.  Stored value:
`(Result, Output)` (the wall-clock `time_taken` component is omitted). -/
abbrev Cache := List (String × (ResultV × String))

def cacheLookup (c : Cache) (k : String) : Option (ResultV × String) :=
  (c.find? (fun kv => kv.1 == k)).map (fun kv => kv.2)

def cacheStore (c : Cache) (k : String) (v : ResultV × String) : Cache :=
  (k, v) :: c

/-- One row of the result stream.  `critical = none` models the cache-hit
return dict, which has no `'Critical'` key; otherwise it holds
`str(...).strip().lower()` of the action row's flag. -/
structure ActionResult where
  designId : String
  planId : String
  stepId : String
  stepInfo : String
  actionType : String
  actionName : String
  input : String
  output : String
  expected : String
  critical : Option String
  result : ResultV
deriving DecidableEq, Repr

/-- The loop over a reused plan's actions (lines 241–247): run each action
through `process_action`; skip the fail-check for an `xUI`/`xOpenBrowser`
row; return the first failing result, if any. -/
def reuseLoop
    (pa : Cache → ActionRow → Except EngErr (ActionResult × Cache)) :
    Cache → List ActionRow → Except EngErr (Option ActionResult × Cache)
  | cache, [] => .ok (none, cache)
  | cache, ra :: rest => do
    let (r, c1) ← pa cache ra
    if r.actionType == "xUI" && r.actionName == "xOpenBrowser" then
      reuseLoop pa c1 rest
    else if r.result == .Fail then
      .ok (some r, c1)
    else
      reuseLoop pa c1 rest

/-- `process_action`.  Steps, as in the source: load the designs table and
resolve placeholders in `Input`/`Expected`; return a cached outcome if the
key is present; expand an `xReuse` action by recursively executing the
referenced plan's actions (raising `ValueError` when the referenced plan id
is not in the plans table, and propagating the first nested `Fail` as the
reuse step's result); otherwise (or on fall-through from a fully passing
reuse) dispatch via `runAction` and cache the outcome.  The fuel argument
only bounds the reuse recursion depth. -/
def processAction : Nat → SuiteEnv → Exec → Cache → String → String →
    ActionRow → Except EngErr (ActionResult × Cache)
  | 0, _, _, _, _, _, _ => .error .outOfFuel
  | fuel + 1, env, exec, cache, planId, designId, a => do
    let designs ← loadDesigns env
    let inputData ← resolveText designs designId a.input
    let expectedR ← resolveText designs designId a.expected
    let key := cacheKey planId a.stepId inputData
    match cacheLookup cache key with
    | some (res, out) =>
      .ok ({ designId := designId, planId := planId, stepId := a.stepId,
             stepInfo := a.stepInfo, actionType := a.actionType,
             actionName := a.actionName, input := inputData, output := out,
             expected := expectedR, critical := none, result := res }, cache)
    | none =>
      let dispatch : Cache → Except EngErr (ActionResult × Cache) := fun c => do
        let (res, out) ← runActionM exec a.actionType a.actionName inputData
          expectedR planId designId a.stepId
        let c2 := cacheStore c key (res, out)
        .ok ({ designId := designId, planId := planId, stepId := a.stepId,
               stepInfo := a.stepInfo, actionType := a.actionType,
               actionName := a.actionName, input := inputData, output := out,
               expected := expectedR,
               critical := some (pyLower (pyStrip a.critical)), result := res }, c2)
      if a.actionType == "xReuse" then do
        let plans ← loadPlans env
        let actionsTbl ← loadActions env
        let reusedPlanId := a.actionName
        if (plans.filter (fun p => p.planId == reusedPlanId)).isEmpty then
          .error (.valueError ("Reused plan " ++ reusedPlanId ++ " not found"))
        else do
          let reusedActions := actionsTbl.filter
            (fun r => r.planId == reusedPlanId)
          let (failed, c1) ← reuseLoop
            (fun c ra => processAction fuel env exec c reusedPlanId designId ra)
            cache reusedActions
          match failed with
          | some r => .ok (r, c1)
          | none => dispatch c1
      else
        dispatch cache

/-! ## `process_plan` (fEngine.py lines 268–313) -/

/-- `str(action_row.get('Critical', 'n')).strip().lower() in {'y', 'yes',
'true', '1'}` (line 298). -/
def isCritical (a : ActionRow) : Bool :=
  ["y", "yes", "true", "1"].contains (pyLower (pyStrip a.critical))

/-- The per-design action loop (lines 287–301): execute the plan's actions
in order, appending each result; a `Fail` result of an action whose
`Critical` flag is set breaks the loop. -/
def processDesign (fuel : Nat) (env : SuiteEnv) (exec : Exec)
    (planId designId : String) :
    Cache → List ActionRow → Except EngErr (List ActionResult × Cache)
  | cache, [] => .ok ([], cache)
  | cache, a :: rest => do
    let (r, c1) ← processAction fuel env exec cache planId designId a
    if r.result == .Fail && isCritical a then
      .ok ([r], c1)
    else do
      let (rs, c2) ← processDesign fuel env exec planId designId c1 rest
      .ok (r :: rs, c2)

/-- The design loop of `process_plan` (line 280): each design id of the
plan's delimited list is executed independently and fully, accumulating
into one result list. -/
def processPlanDesigns (fuel : Nat) (env : SuiteEnv) (exec : Exec)
    (planId : String) (rows : List ActionRow) :
    Cache → List String → Except EngErr (List ActionResult × Cache)
  | cache, [] => .ok ([], cache)
  | cache, d :: ds => do
    let (rs, c1) ← processDesign fuel env exec planId d cache rows
    let (rest, c2) ← processPlanDesigns fuel env exec planId rows c1 ds
    .ok (rs ++ rest, c2)

/-- `process_plan`: split the `DesignId` list on `';'`, select the plan's
action rows from the (re-loaded, normalized) actions table, and run every
design. -/
def processPlan (fuel : Nat) (env : SuiteEnv) (exec : Exec) (cache : Cache)
    (plan : PlanRow) : Except EngErr (List ActionResult × Cache) := do
  let actionsTbl ← loadActions env
  let rows := actionsTbl.filter (fun r => r.planId == plan.planId)
  let designIds := pySplitOnChar ';' plan.designId
  processPlanDesigns fuel env exec plan.planId rows cache designIds

/-! ## `main` (fEngine.py lines 315–428) -/

/-- The sequential plan loop of `main` (lines 386–389). -/
def runPlans (fuel : Nat) (env : SuiteEnv) (exec : Exec) :
    Cache → List PlanRow → Except EngErr (List ActionResult × Cache)
  | cache, [] => .ok ([], cache)
  | cache, p :: ps => do
    let (rs, c1) ← processPlan fuel env exec cache p
    let (rest, c2) ← runPlans fuel env exec c1 ps
    .ok (rs ++ rest, c2)

/-- `(r.designId, r.planId)`, the grouping key of the summary. -/
def rowKey (r : ActionResult) : String × String :=
  (r.designId, r.planId)

def dedupKeysGo (seen : List (String × String)) :
    List (String × String) → List (String × String)
  | [] => []
  | k :: ks =>
    if seen.contains k then dedupKeysGo seen ks
    else k :: dedupKeysGo (k :: seen) ks

/-- First-occurrence deduplication of the group keys.  (pandas sorts group
keys; only the *number* of selected groups is consumed, and that count is
invariant under reordering, so first-occurrence order is used here.) -/
def dedupKeys (l : List (String × String)) : List (String × String) :=
  dedupKeysGo [] l

/-- The first row of a `(DesignId, PlanId)` group, in result order — what
`df.groupby(['DesignId', 'PlanId']).first()` yields for the (never-null)
`Result` column. -/
def firstRowOf (rows : List ActionResult) (k : String × String) :
    Option ActionResult :=
  rows.find? (fun r => rowKey r == k)

/-- `passed_plans` (line 412): the number of `(DesignId, PlanId)` groups
whose `groupby(...).first()` row has `Result == 'Pass'`. -/
def countPassedPlans (rows : List ActionResult) : Nat :=
  ((dedupKeys (rows.map rowKey)).filterMap (firstRowOf rows)).countP
    (fun r => r.result == .Pass)

/-- Per-suite summary figures printed by `main` (lines 410–427). -/
structure SuiteOutcome where
  results : List ActionResult
  totalPlans : Nat
  passedPlans : Nat
  failedPlans : Int
deriving DecidableEq, Repr

/-- The suite loop of `main` (lines 357–428): a missing suite config JSON
is caught (`except FileNotFoundError: continue`); the plans table is then
loaded *outside* any try block, plans are filtered by `Run == 'Y'` (an
empty selection skips the suite), and the selected plans run sequentially.
The action cache is cleared once at `main` entry and persists across
suites. -/
def mainLoop (fuel : Nat) (exec : Exec) :
    Cache → List (Option SuiteEnv) → Except EngErr (List SuiteOutcome)
  | _, [] => .ok []
  | cache, none :: rest => mainLoop fuel exec cache rest
  | cache, some env :: rest => do
    let plans ← loadPlans env
    let plansToRun := plans.filter (fun p => p.run == "Y")
    if plansToRun.isEmpty then
      mainLoop fuel exec cache rest
    else do
      let (allResults, c1) ← runPlans fuel env exec cache plansToRun
      let outcome : SuiteOutcome :=
        { results := allResults,
          totalPlans := plansToRun.length,
          passedPlans := countPassedPlans allResults,
          failedPlans := (plansToRun.length : Int) - (countPassedPlans allResults : Int) }
      let rest2 ← mainLoop fuel exec c1 rest
      .ok (outcome :: rest2)

/-- `main` with a freshly cleared cache. -/
def mainRun (fuel : Nat) (exec : Exec) (suites : List (Option SuiteEnv)) :
    Except EngErr (List SuiteOutcome) :=
  mainLoop fuel exec [] suites

/-! ## Concrete scenarios used by counterexamples and witnesses -/

/-- A designs table with one design column `D1` and no substitution rows. -/
def emptyDesigns : DesignTable :=
  { columns := ["Type", "DataName", "D1"], rows := [] }

/-- An oracle whose math operation `m2` raises and whose other operations
return `"1"`. -/
def execBoom : Exec := fun _ aName _ =>
  if aName == "m2" then .raise "boom" else .ok "1"

/-- Plan `P1` (design `D1`, `Run = Y`) with two non-critical math actions,
the second of which raises: the first action passes, the second fails. -/
def envFirstPassThenFail : SuiteEnv :=
  { plansFile := some [{ planId := "P1", designId := "D1", run := "Y" }],
    actionsFile := some
      [{ planId := "P1", stepId := "S1", stepInfo := "add",
         actionType := "xMath", actionName := "m1", input := "1",
         expected := "", critical := "n" },
       { planId := "P1", stepId := "S2", stepInfo := "boom",
         actionType := "xMath", actionName := "m2", input := "2",
         expected := "", critical := "n" }],
    designsFile := some emptyDesigns }

/-- A suite whose only plan holds a reuse action referencing the
nonexistent plan `P9`. -/
def envUnknownReuse : SuiteEnv :=
  { plansFile := some [{ planId := "P1", designId := "D1", run := "Y" }],
    actionsFile := some
      [{ planId := "P1", stepId := "S1", stepInfo := "reuse",
         actionType := "xReuse", actionName := "P9", input := "",
         expected := "", critical := "n" }],
    designsFile := some emptyDesigns }

/-- The self-referencing reuse action of plan `P1`. -/
def cyclicAction : ActionRow :=
  { planId := "P1", stepId := "S1", stepInfo := "self",
    actionType := "xReuse", actionName := "P1", input := "",
    expected := "", critical := "n" }

/-- A suite whose plan `P1` consists of one reuse action that references
`P1` itself: a direct cycle in the reuse call graph. -/
def envCyclic : SuiteEnv :=
  { plansFile := some [{ planId := "P1", designId := "D1", run := "Y" }],
    actionsFile := some [cyclicAction],
    designsFile := some emptyDesigns }

/-- Plan `P1` over two designs `D1;D2` with three math actions; `m2` (step
`S2`) is `Critical = Y` and raises. -/
def envCritical : SuiteEnv :=
  { plansFile := some [{ planId := "P1", designId := "D1;D2", run := "Y" }],
    actionsFile := some
      [{ planId := "P1", stepId := "S1", stepInfo := "a1",
         actionType := "xMath", actionName := "m1", input := "1",
         expected := "", critical := "n" },
       { planId := "P1", stepId := "S2", stepInfo := "a2",
         actionType := "xMath", actionName := "m2", input := "2",
         expected := "", critical := "Y" },
       { planId := "P1", stepId := "S3", stepInfo := "a3",
         actionType := "xMath", actionName := "m3", input := "3",
         expected := "", critical := "n" }],
    designsFile := some emptyDesigns }

/-- A well-formed second suite: one plan, one passing action. -/
def envGood : SuiteEnv :=
  { plansFile := some [{ planId := "P2", designId := "D1", run := "Y" }],
    actionsFile := some
      [{ planId := "P2", stepId := "S1", stepInfo := "ok",
         actionType := "xMath", actionName := "m1", input := "1",
         expected := "", critical := "n" }],
    designsFile := some emptyDesigns }

/-- A suite env whose plans CSV file is missing. -/
def envMissingPlans : SuiteEnv :=
  { plansFile := none,
    actionsFile := some [],
    designsFile := some emptyDesigns }

/-! ## C3: cache-key construction -/

theorem underscore_free_prefix {a1 a2 r1 r2 : List Char}
    (h1 : '_' ∉ a1) (h2 : '_' ∉ a2)
    (h : a1 ++ '_' :: r1 = a2 ++ '_' :: r2) : a1 = a2 ∧ r1 = r2 := by
  induction a1 generalizing a2 with
  | nil =>
    match a2 with
    | [] => simpa using h
    | c :: a2' =>
      simp only [List.nil_append, List.cons_append, List.cons.injEq] at h
      exact absurd (h.1 ▸ List.mem_cons_self c a2') (h.1 ▸ h2)
  | cons c a1' ih =>
    match a2 with
    | [] =>
      simp only [List.cons_append, List.nil_append, List.cons.injEq] at h
      exact absurd (h.1 ▸ List.mem_cons_self c a1') (h.1 ▸ h1)
    | c2 :: a2' =>
      simp only [List.cons_append, List.cons.injEq] at h
      have h1' : '_' ∉ a1' := fun hm => h1 (List.mem_cons_of_mem c hm)
      have h2' : '_' ∉ a2' := fun hm => h2 (List.mem_cons_of_mem c2 hm)
      obtain ⟨he, hr⟩ := ih h1' h2' h.2
      exact ⟨by rw [h.1, he], hr⟩

theorem cacheKey_data (p s i : String) :
    (cacheKey p s i).data = p.data ++ '_' :: (s.data ++ '_' :: i.data) := by
  simp [cacheKey, String.data_append]

/-- C3 counterexample: the cache key is a plain underscore-join, so the two
distinct triples `("P1", "1_2", "x")` and `("P1_1", "2", "x")` produce the
same cache key `"P1_1_2_x"`: a lookup for one triple returns an outcome
stored for the other. -/
theorem claim_C3_counterexample :
    cacheKey "P1" "1_2" "x" = cacheKey "P1_1" "2" "x" ∧
      ¬(("P1", "1_2", "x") = (("P1_1", "2", "x") : String × String × String)) := by
  constructor
  · rfl
  · decide

/-- C3 (amended): the cache key determines the triple only when the plan id
and step id contain no underscore; under that restriction the construction
is injective, so no two such distinct triples collide in the cache. -/
theorem claim_C3 (p1 s1 i1 p2 s2 i2 : String)
    (hp1 : '_' ∉ p1.data) (hs1 : '_' ∉ s1.data)
    (hp2 : '_' ∉ p2.data) (hs2 : '_' ∉ s2.data)
    (h : cacheKey p1 s1 i1 = cacheKey p2 s2 i2) :
    p1 = p2 ∧ s1 = s2 ∧ i1 = i2 := by
  have hd : (cacheKey p1 s1 i1).data = (cacheKey p2 s2 i2).data := by rw [h]
  rw [cacheKey_data, cacheKey_data] at hd
  obtain ⟨hp, hrest⟩ := underscore_free_prefix hp1 hp2 hd
  obtain ⟨hs, hi⟩ := underscore_free_prefix hs1 hs2 hrest
  exact ⟨String.ext hp, String.ext hs, String.ext hi⟩

/-- Witness for C3 at a concrete underscore-free input. -/
theorem claim_C3_witness :
    ("P1" : String) = "P1" ∧ ("S1" : String) = "S1" ∧ ("a b" : String) = "a b" :=
  claim_C3 "P1" "S1" "a b" "P1" "S1" "a b"
    (by decide) (by decide) (by decide) (by decide) rfl

/-! ## C9: PlanId normalization by the loader -/

/-- C9: `load_csv` normalizes every `PlanId` cell of the Plans and Actions
tables (string-coerce, then prefix `'P'` unless already present), and the
engine's matching — `Run` filtering over loaded plans, action selection via
`y2_actions['PlanId'] == plan_id`, and the reuse lookup
`y1_plans['PlanId'] == reused_plan_id` — operates on the normalized column:
a raw numeric id `12` is selected by the normalized id `"P12"`, while a raw
`"p12"` normalizes to `"Pp12"` and is not. -/
theorem claim_C9 :
    (∀ ps : List PlanRow,
      (normalizePlans ps).map (fun r => r.planId) =
        ps.map (fun r => normPlanId r.planId)) ∧
    (∀ rows : List ActionRow,
      (normalizeActions rows).map (fun r => r.planId) =
        rows.map (fun r => normPlanId r.planId)) ∧
    normPlanId "12" = "P12" ∧ normPlanId "P12" = "P12" ∧
    normPlanId "p12" = "Pp12" ∧ ¬normPlanId "p12" = "P12" ∧
    ((normalizeActions
        [{ planId := "12", stepId := "A", stepInfo := "", actionType := "xMath",
           actionName := "m1", input := "", expected := "", critical := "n" },
         { planId := "p12", stepId := "B", stepInfo := "", actionType := "xMath",
           actionName := "m1", input := "", expected := "", critical := "n" }]).filter
      (fun r => r.planId == normPlanId "12")).map (fun r => r.stepId) = ["A"] ∧
    ¬((normalizePlans [{ planId := "12", designId := "D1", run := "Y" }]).filter
      (fun p => p.planId == "P12")).isEmpty := by
  refine ⟨fun ps => ?_, fun rows => ?_, ?_, ?_, ?_, ?_, ?_, ?_⟩
  · simp [normalizePlans]
  · simp [normalizeActions]
  · rfl
  · rfl
  · rfl
  · decide
  · rfl
  · decide

/-! ## C2: the passed-plans count of the summary -/

theorem dedupKeysGo_mem {seen l : List (String × String)}
    {k : String × String} (h : k ∈ dedupKeysGo seen l) : k ∈ l := by
  induction l generalizing seen with
  | nil => simpa [dedupKeysGo] using h
  | cons a l' ih =>
    rw [dedupKeysGo] at h
    split at h
    · exact List.mem_cons_of_mem a (ih h)
    · rcases List.mem_cons.mp h with he | hm
      · exact he ▸ List.mem_cons_self a l'
      · exact List.mem_cons_of_mem a (ih hm)

theorem dedupKeysGo_append_mem {seen l : List (String × String)}
    {k : String × String} (h : k ∈ l ∨ k ∈ seen) :
    dedupKeysGo seen (l ++ [k]) = dedupKeysGo seen l := by
  induction l generalizing seen with
  | nil =>
    have hk : k ∈ seen := h.resolve_left (by simp)
    have hc : seen.contains k = true := List.elem_iff.mpr hk
    simpa [dedupKeysGo, hc] using hk
  | cons a l' ih =>
    rw [List.cons_append, dedupKeysGo, dedupKeysGo]
    split
    · rename_i hc
      refine ih ?_
      rcases h with h | h
      · rcases List.mem_cons.mp h with he | hm
        · exact Or.inr (he ▸ List.elem_iff.mp hc)
        · exact Or.inl hm
      · exact Or.inr h
    · rw [ih ?_]
      rcases h with h | h
      · rcases List.mem_cons.mp h with he | hm
        · exact Or.inr (he ▸ List.mem_cons_self a seen)
        · exact Or.inl hm
      · exact Or.inr (List.mem_cons_of_mem a h)

theorem firstRowOf_isSome {rows : List ActionResult} {k : String × String}
    (h : k ∈ rows.map rowKey) : (firstRowOf rows k).isSome := by
  obtain ⟨r, hr, hk⟩ := List.mem_map.mp h
  exact List.find?_isSome.mpr ⟨r, hr, by simp [hk]⟩

theorem firstRowOf_append {rows : List ActionResult} {k : String × String}
    (r : ActionResult) (h : (firstRowOf rows k).isSome) :
    firstRowOf (rows ++ [r]) k = firstRowOf rows k := by
  unfold firstRowOf at h ⊢
  rw [List.find?_append, Option.or_of_isSome h]

/-- C2 counterexample: in a suite whose single plan `P1` runs actions
`S1` (passes) and `S2` (fails, not critical) against design `D1`, the
summary still reports `passed_plans = 1`: `groupby(...).first()` looks only
at the first recorded action result of the `(D1, P1)` group, so the `Fail`
of `S2` does not exclude the plan from the passed count. -/
theorem claim_C2_counterexample :
    (mainRun 5 execBoom [some envFirstPassThenFail]).map
      (fun l => l.map (fun o => (o.passedPlans, o.results.map (fun r => r.result)))) =
      .ok [(1, [.Pass, .Fail])] := rfl

/-- C2 (amended): a `(DesignId, PlanId)` execution is counted in
`passed_plans` iff the *first* recorded ActionResult of that pair has
`Result = Pass`; any result appended for a pair already present in the
stream — in particular a later `Fail` of the same plan execution — leaves
the count unchanged. -/
theorem claim_C2 (rows : List ActionResult) (r : ActionResult)
    (h : rowKey r ∈ rows.map rowKey) :
    countPassedPlans (rows ++ [r]) = countPassedPlans rows := by
  unfold countPassedPlans
  rw [List.map_append]
  show ((dedupKeys (rows.map rowKey ++ [rowKey r])).filterMap
    (firstRowOf (rows ++ [r]))).countP _ = _
  unfold dedupKeys
  rw [dedupKeysGo_append_mem (Or.inl h)]
  have hcong : ∀ k ∈ dedupKeysGo [] (rows.map rowKey),
      firstRowOf (rows ++ [r]) k = firstRowOf rows k := by
    intro k hk
    exact firstRowOf_append r (firstRowOf_isSome (dedupKeysGo_mem hk))
  rw [List.filterMap_congr hcong]

/-- Witness for C2 at a concrete result stream. -/
theorem claim_C2_witness :
    countPassedPlans
      ([{ designId := "D1", planId := "P1", stepId := "S1", stepInfo := "",
          actionType := "xMath", actionName := "m1", input := "", output := "1",
          expected := "", critical := some "n", result := .Pass }] ++
       [{ designId := "D1", planId := "P1", stepId := "S2", stepInfo := "",
          actionType := "xMath", actionName := "m2", input := "", output := "e",
          expected := "", critical := some "n", result := .Fail }]) =
    countPassedPlans
      [{ designId := "D1", planId := "P1", stepId := "S1", stepInfo := "",
         actionType := "xMath", actionName := "m1", input := "", output := "1",
         expected := "", critical := some "n", result := .Pass }] :=
  claim_C2 _ _ (by decide)

/-! ## C8: substitution resolver totality / pass-through -/

/-- A design row is harmless for `text`: its `DataName` cell is present
(not the pandas-`NaN` of an empty cell) and its token has no whole-word
occurrence in `text`. -/
def rowOk (text : String) (row : DesignRow) : Bool :=
  match row.dataName with
  | none => false
  | some tok => !occursWholeWord tok text

theorem resolveRows_id {rows : List DesignRow} {designId text : String}
    (h : rows.all (rowOk text) = true) :
    rows.foldlM (fun acc row => resolveRow designId acc row) text = .ok text := by
  induction rows with
  | nil => rfl
  | cons row rest ih =>
    rw [List.all_cons, Bool.and_eq_true] at h
    obtain ⟨h1, h2⟩ := h
    rw [List.foldlM_cons]
    unfold rowOk at h1
    cases hd : row.dataName with
    | none => rw [hd] at h1; cases h1
    | some tok =>
      rw [hd] at h1
      have hocc : occursWholeWord tok text = false := by
        simpa using h1
      have hrr : resolveRow designId text row = .ok text := by
        unfold resolveRow
        rw [hd]
        show Except.ok (substWord tok (getCell row designId) text) = Except.ok text
        rw [substWord_of_not_occurs hocc]
      rw [hrr]
      show rest.foldlM (fun acc row => resolveRow designId acc row) text = .ok text
      exact ih h2

/-- C8 counterexample: resolution *can* raise.  A design table whose active
column is `D1` and whose single row has an empty `DataName` cell (pandas
`NaN`) makes the resolver raise a `TypeError` from
`re.escape(data_name)`, because `data_name = row['DataName']` is used
without string conversion. -/
theorem claim_C8_counterexample :
    resolveText
      { columns := ["Type", "DataName", "D1"],
        rows := [{ dataName := none, cells := [("D1", "v")] }] }
      "D1" "hello" =
      .error (.typeError "re.escape: expected string or bytes-like object") := rfl

theorem resolveRows_total (designId : String) :
    ∀ (rows : List DesignRow),
      rows.all (fun row => row.dataName.isSome) = true →
      ∀ text : String, ∃ res,
        rows.foldlM (fun acc row => resolveRow designId acc row) text =
          .ok res := by
  intro rows
  induction rows with
  | nil =>
    intro _ text
    exact ⟨text, rfl⟩
  | cons row rest ih =>
    intro h text
    rw [List.all_cons, Bool.and_eq_true] at h
    obtain ⟨h1, h2⟩ := h
    cases hd : row.dataName with
    | none => rw [hd] at h1; cases h1
    | some tok =>
      have hrr : resolveRow designId text row =
          .ok (substWord tok (getCell row designId) text) := by
        unfold resolveRow
        rw [hd]
      obtain ⟨res, hres⟩ := ih h2 (substWord tok (getCell row designId) text)
      refine ⟨res, ?_⟩
      rw [List.foldlM_cons, hrr]
      exact hres

/-- C8 (amended): provided every `DataName` cell of the design table is
present (non-empty), resolution never raises — it returns some resolved
text on *every* input, including inputs in which tokens occur and are
substituted (first conjunct); when additionally no `DataName` token occurs
as a whole word in the text, the result is the input unchanged (second
conjunct).  (Determinism is intrinsic: the resolver is a pure function of
the table, the design id and the text.)  A row with an empty `DataName`
cell instead raises a `TypeError`. -/
theorem claim_C8 :
    (∀ (tbl : DesignTable) (designId text : String),
      tbl.rows.all (fun row => row.dataName.isSome) = true →
      ∃ res, resolveText tbl designId text = .ok res) ∧
    (∀ (tbl : DesignTable) (designId text : String),
      tbl.rows.all (rowOk text) = true →
      resolveText tbl designId text = .ok text) := by
  constructor
  · intro tbl designId text h
    unfold resolveText
    split
    · exact resolveRows_total designId tbl.rows h text
    · exact ⟨text, rfl⟩
  · intro tbl designId text h
    unfold resolveText
    split
    · exact resolveRows_id h
    · rfl

/-- Witness for C8: with token `USER` present in the table, resolution of
`"USER logs in"` (the token *occurs* and is substituted) succeeds, and
`"hello world"` (no occurrence) comes back unchanged. -/
theorem claim_C8_witness :
    (∃ res, resolveText
      { columns := ["Type", "DataName", "D1"],
        rows := [{ dataName := some "USER", cells := [("D1", "alice")] }] }
      "D1" "USER logs in" = .ok res) ∧
    resolveText
      { columns := ["Type", "DataName", "D1"],
        rows := [{ dataName := some "USER", cells := [("D1", "alice")] }] }
      "D1" "hello world" = .ok "hello world" :=
  ⟨claim_C8.1 _ "D1" "USER logs in" (by decide),
   claim_C8.2 _ "D1" "hello world" (by decide)⟩

/-! ## C10: null-like expected values skip comparison -/

/-- C10: an expected value that is falsy or whose lower-case form is
`"nan"`, `"none"` or `""` fails the dispatcher's comparison guard, so any
operation that completes without raising is classified `Pass` regardless of
its output; in particular the literal strings `"None"` and `"NAN"` are
never compared against the output. -/
theorem claim_C10 :
    (∀ (exec : Exec) (aT aName aIn expected planId designId stepId out : String),
      knownHandlerTypes.contains aT = true →
      exec aT aName aIn = .ok out →
      ["nan", "none", ""].contains (pyLower expected) = true →
      (runActionM exec aT aName aIn expected planId designId stepId).map
        Prod.fst = .ok .Pass) ∧
    classify "None" "anything" = .Pass ∧ classify "NAN" "x" = .Pass ∧
    classify "" "x" = .Pass := by
  refine ⟨?_, rfl, rfl, rfl⟩
  intro exec aT aName aIn expected planId designId stepId out hknown hok hnull
  have hpres : expectedPresent expected = false := by
    unfold expectedPresent
    rw [hnull]
    simp
  unfold runActionM
  rw [hknown]
  simp only [if_true]
  rw [hok]
  unfold classify
  rw [hpres]
  rfl

/-- Witness for C10: a math action with expected `"None"` passes although
its output is `"1"`. -/
theorem claim_C10_witness :
    (runActionM execBoom "xMath" "m1" "x" "None" "P1" "D1" "S1").map
      Prod.fst = .ok .Pass :=
  claim_C10.1 execBoom "xMath" "m1" "x" "None" "P1" "D1" "S1" "1"
    (by decide) rfl (by decide)

/-! ## C1: reuse of an unknown plan id -/

theorem except_bind_ok {ε α β : Type} (x : α) (f : α → Except ε β) :
    (Except.ok x >>= f) = f x := rfl

theorem except_bind_err {ε α β : Type} (e : ε) (f : α → Except ε β) :
    ((Except.error e : Except ε α) >>= f) = Except.error e := rfl

/-- The reuse action row of `envUnknownReuse`. -/
def unknownReuseRow : ActionRow :=
  { planId := "P1", stepId := "S1", stepInfo := "reuse",
    actionType := "xReuse", actionName := "P9", input := "",
    expected := "", critical := "n" }

/-- C1 counterexample: a run containing a reuse action whose `ActionName`
(`P9`) matches no `PlanId` does *not* yield a Fail ActionResult for the
reuse step — `process_action` raises `ValueError("Reused plan P9 not
found")`, nothing catches it, and the whole run aborts: the second,
well-formed suite produces no outcome at all. -/
theorem claim_C1_counterexample :
    mainRun 5 execBoom [some envUnknownReuse, some envGood] =
      .error (.valueError "Reused plan P9 not found") := rfl

/-- C1 (amended): executing a reuse action whose `ActionName` matches no
`PlanId` in the loaded plans table raises an uncaught
`ValueError("Reused plan <id> not found")` from `process_action` — the
error is not converted into a Fail ActionResult and propagates out of the
engine, aborting the run (no remaining design or plan executes).  Stated
for any uncached reuse action whose input/expected resolution succeeds. -/
theorem claim_C1 (fuel : Nat) (env : SuiteEnv) (exec : Exec) (cache : Cache)
    (planId designId : String) (a : ActionRow) (tbl : DesignTable)
    (ri re : String) (ps : List PlanRow) (acts : List ActionRow)
    (htype : a.actionType = "xReuse")
    (hdes : env.designsFile = some tbl)
    (hri : resolveText tbl designId a.input = .ok ri)
    (hre : resolveText tbl designId a.expected = .ok re)
    (hmiss : cacheLookup cache (cacheKey planId a.stepId ri) = none)
    (hplans : env.plansFile = some ps)
    (hacts : env.actionsFile = some acts)
    (hnone : (normalizePlans ps).filter (fun p => p.planId == a.actionName) = []) :
    processAction (fuel + 1) env exec cache planId designId a =
      .error (.valueError ("Reused plan " ++ a.actionName ++ " not found")) := by
  simp only [processAction, loadDesigns, hdes, except_bind_ok, hri, hre, hmiss,
    htype, beq_self_eq_true, if_true, loadPlans, hplans, loadActions, hacts,
    hnone, List.isEmpty_nil]

/-- Witness for C1 at the concrete unknown-reuse suite. -/
theorem claim_C1_witness :
    processAction 1 envUnknownReuse execBoom [] "P1" "D1" unknownReuseRow =
      .error (.valueError ("Reused plan " ++ "P9" ++ " not found")) :=
  claim_C1 0 envUnknownReuse execBoom [] "P1" "D1" unknownReuseRow
    emptyDesigns "" "" [{ planId := "P1", designId := "D1", run := "Y" }]
    [unknownReuseRow] rfl rfl rfl rfl rfl rfl rfl (by decide)

/-! ## C7: missing files and suite isolation -/

/-- A suite env whose actions CSV file is missing. -/
def envMissingActions : SuiteEnv :=
  { plansFile := some [{ planId := "P1", designId := "D1", run := "Y" }],
    actionsFile := none,
    designsFile := some emptyDesigns }

/-- C7 counterexample: when the first suite's *plans table file* is
missing, the run does not continue to the next configured suite — the
`FileNotFoundError` from `load_csv` (raised outside any try block)
aborts the whole run, and the well-formed second suite yields no outcome. -/
theorem claim_C7_counterexample :
    mainRun 3 execBoom [some envMissingPlans, some envGood] =
      .error (.fileNotFound "yPlans") := rfl

/-- C7 (amended): only a missing suite *config* file is caught and
skipped (`except FileNotFoundError: continue`), after which the
orchestrator proceeds with the remaining suites; a missing referenced
Plans table file — or a missing Actions table file once at least one plan
is selected to run — raises an uncaught `FileNotFoundError` that aborts
the entire run. -/
theorem claim_C7 :
    (∀ (fuel : Nat) (exec : Exec) (cache : Cache) (rest : List (Option SuiteEnv)),
      mainLoop fuel exec cache (none :: rest) = mainLoop fuel exec cache rest) ∧
    (∀ (fuel : Nat) (exec : Exec) (cache : Cache) (rest : List (Option SuiteEnv))
      (env : SuiteEnv), env.plansFile = none →
      mainLoop fuel exec cache (some env :: rest) =
        .error (.fileNotFound "yPlans")) ∧
    (∀ (fuel : Nat) (exec : Exec) (cache : Cache) (rest : List (Option SuiteEnv))
      (env : SuiteEnv) (ps : List PlanRow) (p : PlanRow) (others : List PlanRow),
      env.plansFile = some ps → env.actionsFile = none →
      (normalizePlans ps).filter (fun q => q.run == "Y") = p :: others →
      mainLoop fuel exec cache (some env :: rest) =
        .error (.fileNotFound "yActions")) := by
  refine ⟨fun fuel exec cache rest => rfl, ?_, ?_⟩
  · intro fuel exec cache rest env hp
    simp only [mainLoop, loadPlans, hp, except_bind_err]
  · intro fuel exec cache rest env ps p others hp hacts hfilter
    simp only [mainLoop, loadPlans, hp, except_bind_ok, hfilter,
      List.isEmpty_cons, Bool.false_eq_true, if_false, runPlans, processPlan,
      loadActions, hacts, except_bind_err]

/-- Witness for C7: both abort modes at concrete suites. -/
theorem claim_C7_witness :
    mainLoop 3 execBoom [] [some envMissingPlans] =
      .error (.fileNotFound "yPlans") ∧
    mainLoop 3 execBoom [] [some envMissingActions] =
      .error (.fileNotFound "yActions") :=
  ⟨claim_C7.2.1 3 execBoom [] [] envMissingPlans rfl,
   claim_C7.2.2 3 execBoom [] [] envMissingActions
     [{ planId := "P1", designId := "D1", run := "Y" }]
     { planId := "P1", designId := "D1", run := "Y" } []
     rfl rfl (by decide)⟩

/-! ## C4: cyclic reuse does not terminate -/

/-- C4 (amended): reuse expansion has *no* cycle or depth guard: for a plan
whose reuse action references itself, `process_action` re-enters itself
with identical arguments, so for *every* recursion budget the execution
exhausts the budget instead of producing a cycle/depth Fail result (in
Python the unguarded recursion runs until the interpreter's
`RecursionError` aborts the run). -/
theorem claim_C4 : ∀ fuel : Nat,
    processAction fuel envCyclic execBoom [] "P1" "D1" cyclicAction =
      .error .outOfFuel := by
  intro fuel
  induction fuel with
  | zero => rfl
  | succ n ih =>
    have h1 : reuseLoop
        (fun c ra => processAction n envCyclic execBoom c "P1" "D1" ra)
        [] [cyclicAction] = .error .outOfFuel := by
      rw [reuseLoop]
      show (processAction n envCyclic execBoom [] "P1" "D1" cyclicAction) >>= _ = _
      rw [ih]
      rfl
    simp [envCyclic, cyclicAction, emptyDesigns] at h1
    simp only [processAction, loadDesigns, envCyclic, resolveText,
      emptyDesigns, cacheLookup, cacheKey, loadPlans, loadActions, normalizePlans,
      normalizeActions, cyclicAction, normPlanId, startsWithP]
    simp [h1, except_bind_ok, except_bind_err, List.foldlM]

/-- C4 counterexample: at the concrete recursion budget 10, executing the
self-referencing reuse action neither terminates with a cycle/depth Fail
result nor with any result at all — the budget is exhausted.  Together
with `claim_C4` (every budget is exhausted) this refutes fail-fast cycle
detection. -/
theorem claim_C4_counterexample :
    processAction 10 envCyclic execBoom [] "P1" "D1" cyclicAction =
      .error .outOfFuel := rfl


/-! ## C5: critical short-circuit -/

/-- Whether a produced result short-circuits the per-design action loop:
`result['Result'] == 'Fail'` together with the action row's `Critical`
flag set (fEngine.py lines 295–301). -/
def shortCircuits (r : ActionResult) (a : ActionRow) : Prop :=
  r.result = .Fail ∧ isCritical a = true

instance (r : ActionResult) (a : ActionRow) : Decidable (shortCircuits r a) :=
  inferInstanceAs (Decidable (_ ∧ _))

theorem processDesign_shortCircuit (fuel : Nat) (env : SuiteEnv) (exec : Exec)
    (planId designId : String) :
    ∀ (actions : List ActionRow) (cache : Cache) (rs : List ActionResult)
      (c2 : Cache) (i : Nat)
      (hrun : processDesign fuel env exec planId designId cache actions =
        .ok (rs, c2))
      (hi : i < rs.length) (hia : i < actions.length)
      (hsc : shortCircuits (rs.get ⟨i, hi⟩) (actions.get ⟨i, hia⟩))
      (hprev : ∀ j (hj : j < i) (hj2 : j < rs.length) (hj3 : j < actions.length),
        ¬shortCircuits (rs.get ⟨j, hj2⟩) (actions.get ⟨j, hj3⟩)),
      rs.length = i + 1 := by
  intro actions
  induction actions with
  | nil =>
    intro cache rs c2 i hrun hi hia hsc hprev
    exact absurd hia (Nat.not_lt_zero i)
  | cons a rest ih =>
    intro cache rs c2 i hrun hi hia hsc hprev
    rw [processDesign] at hrun
    cases hpa : processAction fuel env exec cache planId designId a with
    | error e => rw [hpa] at hrun; cases hrun
    | ok rc =>
      obtain ⟨r, c1⟩ := rc
      rw [hpa, except_bind_ok] at hrun
      simp only [] at hrun
      by_cases hcond : (r.result == ResultV.Fail && isCritical a) = true
      · rw [if_pos hcond] at hrun
        injection hrun with hpair
        have hrs : rs = [r] := by
          have := congrArg Prod.fst hpair
          simpa using this.symm
        subst hrs
        have hz : i = 0 := by
          simp only [List.length_singleton] at hi
          omega
        rw [hz]
        rfl
      · rw [if_neg hcond] at hrun
        cases hpd : processDesign fuel env exec planId designId c1 rest with
        | error e => rw [hpd] at hrun; cases hrun
        | ok prc =>
          obtain ⟨rs', c2'⟩ := prc
          rw [hpd, except_bind_ok] at hrun
          injection hrun with hpair
          have hrs : rs = r :: rs' := by
            have := congrArg Prod.fst hpair
            simpa using this.symm
          have hc2 : c2' = c2 := by
            have := congrArg Prod.snd hpair
            simpa using this
          subst hrs
          match i with
          | 0 =>
            exfalso
            apply hcond
            have hr : r.result = ResultV.Fail := hsc.1
            have ha : isCritical a = true := hsc.2
            rw [hr, ha]
            rfl
          | i' + 1 =>
            have hi' : i' < rs'.length := by
              simpa using hi
            have hia' : i' < rest.length := by
              simpa using hia
            have hlen := ih c1 rs' c2' i' (hc2 ▸ hpd) hi' hia' hsc
              (fun j hj hj2 hj3 =>
                hprev (j + 1) (Nat.succ_lt_succ hj) (Nat.succ_lt_succ hj2)
                  (Nat.succ_lt_succ hj3))
            simp only [List.length_cons, hlen]

theorem processPlanDesigns_cons (fuel : Nat) (env : SuiteEnv) (exec : Exec)
    (planId : String) (rows : List ActionRow) (cache : Cache) (d : String)
    (ds : List String) (out : List ActionResult) (c2 : Cache)
    (hrun : processPlanDesigns fuel env exec planId rows cache (d :: ds) =
      .ok (out, c2)) :
    ∃ rs c1 rest,
      processDesign fuel env exec planId d cache rows = .ok (rs, c1) ∧
      processPlanDesigns fuel env exec planId rows c1 ds = .ok (rest, c2) ∧
      out = rs ++ rest := by
  rw [processPlanDesigns] at hrun
  cases hpd : processDesign fuel env exec planId d cache rows with
  | error e => rw [hpd] at hrun; cases hrun
  | ok prc =>
    obtain ⟨rs, c1⟩ := prc
    rw [hpd, except_bind_ok] at hrun
    simp only [] at hrun
    cases hrest : processPlanDesigns fuel env exec planId rows c1 ds with
    | error e => rw [hrest] at hrun; cases hrun
    | ok rrc =>
      obtain ⟨rest, c2'⟩ := rrc
      rw [hrest, except_bind_ok] at hrun
      simp only [] at hrun
      injection hrun with hpair
      have h1 : rs ++ rest = out := congrArg Prod.fst hpair
      have h2 : c2' = c2 := congrArg Prod.snd hpair
      exact ⟨rs, c1, rest, rfl, h2 ▸ hrest, h1.symm⟩

/-- C5: within one `(plan, design)` execution the actions run in
declaration order and a `Fail` of a `Critical` action at (0-based) position
`i` truncates that pair's result list to exactly the first `i + 1`
ActionResults — nothing after position `i` executes for that pair (first
conjunct); and the plan's remaining designs are still processed: the
result stream of the design loop is the concatenation of the failing
design's (truncated) results with the results produced for the remaining
designs (second conjunct). -/
theorem claim_C5 :
    (∀ (fuel : Nat) (env : SuiteEnv) (exec : Exec) (planId designId : String)
      (actions : List ActionRow) (cache : Cache) (rs : List ActionResult)
      (c2 : Cache) (i : Nat),
      processDesign fuel env exec planId designId cache actions = .ok (rs, c2) →
      ∀ (hi : i < rs.length) (hia : i < actions.length),
      shortCircuits (rs.get ⟨i, hi⟩) (actions.get ⟨i, hia⟩) →
      (∀ j (hj : j < i) (hj2 : j < rs.length) (hj3 : j < actions.length),
        ¬shortCircuits (rs.get ⟨j, hj2⟩) (actions.get ⟨j, hj3⟩)) →
      rs.length = i + 1) ∧
    (∀ (fuel : Nat) (env : SuiteEnv) (exec : Exec) (planId : String)
      (rows : List ActionRow) (cache : Cache) (d : String) (ds : List String)
      (out : List ActionResult) (c2 : Cache),
      processPlanDesigns fuel env exec planId rows cache (d :: ds) =
        .ok (out, c2) →
      ∃ rs c1 rest,
        processDesign fuel env exec planId d cache rows = .ok (rs, c1) ∧
        processPlanDesigns fuel env exec planId rows c1 ds = .ok (rest, c2) ∧
        out = rs ++ rest) := by
  constructor
  · intro fuel env exec planId designId actions cache rs c2 i hrun hi hia hsc hprev
    exact processDesign_shortCircuit fuel env exec planId designId actions
      cache rs c2 i hrun hi hia hsc hprev
  · intro fuel env exec planId rows cache d ds out c2 hrun
    exact processPlanDesigns_cons fuel env exec planId rows cache d ds out
      c2 hrun

/-- The (normalized) action rows of `envCritical`'s plan `P1`. -/
def actsCrit : List ActionRow :=
  [{ planId := "P1", stepId := "S1", stepInfo := "a1", actionType := "xMath",
     actionName := "m1", input := "1", expected := "", critical := "n" },
   { planId := "P1", stepId := "S2", stepInfo := "a2", actionType := "xMath",
     actionName := "m2", input := "2", expected := "", critical := "Y" },
   { planId := "P1", stepId := "S3", stepInfo := "a3", actionType := "xMath",
     actionName := "m3", input := "3", expected := "", critical := "n" }]

/-- The two results produced for `(P1, D1)`: step `S2` fails critically, so
step `S3` never executes. -/
def rsCrit : List ActionResult :=
  [{ designId := "D1", planId := "P1", stepId := "S1", stepInfo := "a1",
     actionType := "xMath", actionName := "m1", input := "1", output := "1",
     expected := "", critical := some "n", result := .Pass },
   { designId := "D1", planId := "P1", stepId := "S2", stepInfo := "a2",
     actionType := "xMath", actionName := "m2", input := "2",
     output := "Error in m2: boom", expected := "", critical := some "y",
     result := .Fail }]

/-- The cache after executing `(P1, D1)` of `envCritical`. -/
def cacheCrit : Cache :=
  [("P1_S2_2", (.Fail, "Error in m2: boom")), ("P1_S1_1", (.Pass, "1"))]

/-- The results of both designs `D1;D2`: the second design still executes
(serving its two rows from the cache, whose return dict has no `Critical`
key). -/
def outCrit : List ActionResult :=
  rsCrit ++
  [{ designId := "D2", planId := "P1", stepId := "S1", stepInfo := "a1",
     actionType := "xMath", actionName := "m1", input := "1", output := "1",
     expected := "", critical := none, result := .Pass },
   { designId := "D2", planId := "P1", stepId := "S2", stepInfo := "a2",
     actionType := "xMath", actionName := "m2", input := "2",
     output := "Error in m2: boom", expected := "", critical := none,
     result := .Fail }]

/-- Witness for C5: in `envCritical` (three actions, the second critical
and failing) design `D1` records exactly 2 of 3 results, while design `D2`
still executes. -/
theorem claim_C5_witness :
    rsCrit.length = 1 + 1 ∧
    (∃ rs c1 rest,
      processDesign 1 envCritical execBoom "P1" "D1" [] actsCrit =
        .ok (rs, c1) ∧
      processPlanDesigns 1 envCritical execBoom "P1" actsCrit c1 ["D2"] =
        .ok (rest, cacheCrit) ∧
      outCrit = rs ++ rest) :=
  ⟨claim_C5.1 1 envCritical execBoom "P1" "D1" actsCrit [] rsCrit cacheCrit 1
      rfl (by decide) (by decide) (by decide)
      (by
        intro j hj hj2 hj3
        have hz : j = 0 := by omega
        subst hz
        intro hc
        exact ResultV.noConfusion hc.1),
   claim_C5.2 1 envCritical execBoom "P1" actsCrit [] "D1" ["D2"] outCrit
      cacheCrit rfl⟩

/-! ## C6: numeric tolerance of the pass/fail comparison -/

/-- The exact rational value of a finite double `m * 2 ^ e`. -/
def finVal (m e : Int) : Rat :=
  (m : Rat) * (2 : Rat) ^ e

/-- `ltD` on finite doubles decides exactly the comparison of the rational
values they denote. -/
theorem ltD_finite_iff (m1 e1 m2 e2 : Int) :
    ltD (.finite m1 e1) (.finite m2 e2) = true ↔ finVal m1 e1 < finVal m2 e2 := by
  unfold ltD finVal
  simp only []
  set k : Int := min e1 e2 with hk
  have hk1 : k ≤ e1 := min_le_left _ _
  have hk2 : k ≤ e2 := min_le_right _ _
  have h2 : (0 : Rat) < (2 : Rat) ^ k := zpow_pos (by norm_num) k
  have hsplit : ∀ (m e : Int), k ≤ e →
      (m : Rat) * (2 : Rat) ^ e =
        ((m * (2 : Int) ^ (e - k).toNat : Int) : Rat) * (2 : Rat) ^ k := by
    intro m e he
    push_cast
    rw [mul_assoc]
    congr 1
    rw [← zpow_natCast (2 : Rat) (e - k).toNat, Int.toNat_of_nonneg (by omega),
      ← zpow_add₀ (by norm_num : (2 : Rat) ≠ 0)]
    congr 1
    omega
  rw [hsplit m1 e1 hk1, hsplit m2 e2 hk2, mul_lt_mul_right h2,
    decide_eq_true_iff]
  exact_mod_cast Iff.rfl

/-- The Python literal `1e-6` as a binary64 value: slightly *above* the
decimal `10⁻⁶` (`4722366482869645 * 2⁻⁷² > 10⁻⁶`). -/
theorem d1e6_eq : d1e6 = .finite 4722366482869645 (-72) := rfl

theorem string_branch_iff (x y : String) :
    (if x == y then ResultV.Pass else ResultV.Fail) = .Pass ↔ x = y := by
  by_cases h : x = y
  · simp [h]
  · simp [h]

/-- C6 counterexample: at `Expected = "1.000001"`, `Output = "1.0"` the
exact absolute difference of the two decimal numbers is *exactly* `10⁻⁶`,
not strictly less, so the claim as stated demands Fail — but the program
compares binary64 doubles: `float("1.000001")` rounds *down*, the double
difference is `4722366482481152·2⁻⁷²`, which is below
`float(1e-6) = 4722366482869645·2⁻⁷²`, and the dispatcher returns Pass. -/
theorem claim_C6_counterexample :
    classify "1.000001" "1.0" = .Pass ∧
      ¬(|(1000001 : Rat) / 1000000 - 1| < 1 / 1000000) := by
  constructor
  · rfl
  · have habs : |(1000001 : Rat) / 1000000 - 1| = 1 / 1000000 := by
      rw [show (1000001 : Rat) / 1000000 - 1 = 1 / 1000000 by norm_num]
      exact abs_of_pos (by norm_num)
    rw [habs]
    exact lt_irrefl _

/-- C6 (amended): with a present expected value, if both sides parse under
Python `float()` (nearest-binary64 rounding), the result is Pass iff the
binary64 evaluation of `abs(expected_float - actual_float) < 1e-6` holds —
that is, iff the exact rational value of the rounded-and-re-rounded
difference is below the binary64 value `4722366482869645·2⁻⁷²` of the
literal `1e-6` (first conjunct; a NaN or infinite difference — e.g. from
`inf`-valued operands — is Fail, second conjunct); if either side fails to
parse, Pass iff the strings are exactly equal (third conjunct).  The
spec's examples keep their verdicts under binary64:
`3.0000001`/`3.0` → Pass, `3.1`/`3.0` → Fail; at the rounding boundary
`1.000001`/`1.0` → Pass. -/
theorem claim_C6 :
    (∀ (expected out : String) (e o : PyDouble) (dm de : Int),
      expectedPresent expected = true →
      parseFloat expected = some e → parseFloat out = some o →
      absD (subD e o) = .finite dm de →
      (classify expected out = .Pass ↔
        finVal dm de < finVal 4722366482869645 (-72))) ∧
    (∀ (expected out : String) (e o : PyDouble),
      expectedPresent expected = true →
      parseFloat expected = some e → parseFloat out = some o →
      absD (subD e o) = .nan ∨ absD (subD e o) = .inf false →
      classify expected out = .Fail) ∧
    (∀ (expected out : String),
      expectedPresent expected = true →
      parseFloat expected = none ∨ parseFloat out = none →
      (classify expected out = .Pass ↔ expected = out)) ∧
    classify "3.0000001" "3.0" = .Pass ∧ classify "3.1" "3.0" = .Fail ∧
    classify "1.000001" "1.0" = .Pass := by
  refine ⟨?_, ?_, ?_, rfl, rfl, rfl⟩
  · intro expected out e o dm de hp hpe hpo habs
    unfold classify
    rw [hp, if_pos rfl, hpe, hpo]
    simp only []
    rw [habs, d1e6_eq]
    by_cases ht : ltD (.finite dm de) (.finite 4722366482869645 (-72)) = true
    · rw [if_pos ht]
      exact iff_of_true rfl
        ((ltD_finite_iff dm de 4722366482869645 (-72)).mp ht)
    · rw [if_neg ht]
      refine iff_of_false (by simp) ?_
      intro hlt
      exact ht ((ltD_finite_iff dm de 4722366482869645 (-72)).mpr hlt)
  · intro expected out e o hp hpe hpo habs
    unfold classify
    rw [hp, if_pos rfl, hpe, hpo]
    simp only []
    rcases habs with h | h
    · rw [h]
      rfl
    · rw [h]
      rfl
  · intro expected out hp hnone
    unfold classify
    rw [hp, if_pos rfl]
    rcases hnone with h | h
    · rw [h]
      exact string_branch_iff expected out
    · cases hpe : parseFloat expected with
      | none => exact string_branch_iff expected out
      | some e =>
        rw [h]
        exact string_branch_iff expected out

/-- Witness for C6: the numeric branch at `"2"` vs `"2.0000005"` (the
double difference `4722366483529728·2⁻⁷³` is below the double `1e-6`, via
the forward direction at the concretely computed Pass), and the string
branch at `"abc"` vs `"abc"`. -/
theorem claim_C6_witness :
    finVal 4722366483529728 (-73) < finVal 4722366482869645 (-72) ∧
    classify "abc" "abc" = .Pass := by
  constructor
  · exact (claim_C6.1 "2" "2.0000005" (.finite 4503599627370496 (-51))
      (.finite 4503600753270403 (-51)) 4722366483529728 (-73)
      rfl (by decide) (by decide) (by decide)).mp (by decide)
  · exact (claim_C6.2.2.1 "abc" "abc" rfl (Or.inl rfl)).mpr rfl
